import Mathlib

/-!
# Pub/Sub push middleware (`push.go`)

A shallow embedding of the HTTP middleware built by `New` in `push.go`, and
theorems about what it hands to the downstream handler.

Modelling conventions.

* A Go `string` and a Go `[]byte` are byte sequences: `Bytes = List Nat`, one
  number per byte.  `str` turns an ASCII literal into its bytes.
* `http.Header` is `map[string][]string`: a function from the map key to the
  optional list of values.  `Get`, `Set` and `Del` canonicalise the key with
  `textproto.CanonicalMIMEHeaderKey`, as the Go standard library does.
* A request body (`io.ReadCloser`) is the bytes it still yields, followed by
  end-of-file or by a read error.
* `map[string]string` (the envelope attributes) is the list of its key/value
  pairs in the order in which the `range` loop visits them.
* The effects of the handler (reading the body, calling the detector, calling
  the downstream handler, writing an error response) are recorded, in order,
  as a list of `Event`s.
* The JSON decoder is a parameter `unmarshal`.
* The Go runtime and the buffer pool are a parameter `Runtime`: the capacity
  of the buffer that `bufferPool.Get()` hands out, and the sizes for which
  `make([]byte, n)` succeeds.  `buff.Grow` (line 94) is modelled on it, with
  its panics; `int` has 64 bits.
* A panic of the handler is the event `Event.panic`; nothing follows it.
* The response headers that `http.Error` sets are not modelled.
-/

namespace Push

/-- Byte sequences: Go `string` and `[]byte`. -/
abbrev Bytes := List Nat

/-- The bytes of an ASCII string literal. -/
def str (s : String) : Bytes := s.toList.map Char.toNat

/-! ## Standard-library functions used by `push.go` -/

/-- Go `strings.HasPrefix(s, prefix)` / `bytes.HasPrefix`. -/
def HasPrefix (s pre : Bytes) : Bool := pre.isPrefixOf s

/-- Go `bytes.Contains(b, subslice)`: scan the start positions from the left
and compare `subslice` with the bytes found there. -/
def Contains : Bytes → Bytes → Bool
  | [], subslice => HasPrefix [] subslice
  | c :: b, subslice => HasPrefix (c :: b) subslice || Contains b subslice

/-- ASCII lower-casing of one byte. -/
def lowerByte (c : Nat) : Nat := if 65 ≤ c ∧ c ≤ 90 then c + 32 else c

/-- Go `strings.ToLower` on its ASCII path: `A`-`Z` become `a`-`z`, every other
byte stays.  On input with a byte above 127 Go maps whole runes through
`unicode.ToLower`; no rune outside ASCII is mapped to one of the letters of
`content-type`, so the comparison `ToLower(k) == "content-type"`, the only
use in `push.go`, has the same result. -/
def ToLower (s : Bytes) : Bytes := s.map lowerByte

/-- Go `textproto.validHeaderFieldByte`: the RFC 7230 token bytes. -/
def validHeaderFieldByte (c : Nat) : Bool :=
  (48 ≤ c && c ≤ 57) || (97 ≤ c && c ≤ 122) || (65 ≤ c && c ≤ 90) ||
    [33, 35, 36, 37, 38, 39, 42, 43, 45, 46, 94, 95, 96, 124, 126].contains c

/-- The rewriting loop of Go `textproto.canonicalMIMEHeaderKey`: upper-case
the first letter and every letter after a hyphen, lower-case the others. -/
def canonicalLoop : Bool → Bytes → Bytes
  | _, [] => []
  | upper, c :: a =>
    let c1 :=
      if upper && (97 ≤ c && c ≤ 122) then c - 32
      else if !upper && (65 ≤ c && c ≤ 90) then c + 32
      else c
    c1 :: canonicalLoop (c1 == 45) a

/-- Go `textproto.CanonicalMIMEHeaderKey`: a key with a byte that is not a
token byte is returned unchanged. -/
def CanonicalMIMEHeaderKey (s : Bytes) : Bytes :=
  if s.all validHeaderFieldByte then canonicalLoop true s else s

/-- Go `http.Header`, a `map[string][]string`. -/
def Header := Bytes → Option (List Bytes)

/-- Go `Header.Get`: the first value stored under the canonical key. -/
def Header.Get (h : Header) (key : Bytes) : Bytes :=
  match h (CanonicalMIMEHeaderKey key) with
  | some (v :: _) => v
  | _ => []

/-- Go `Header.Set`: replace the values under the canonical key. -/
def Header.Set (h : Header) (key value : Bytes) : Header :=
  fun k => if k = CanonicalMIMEHeaderKey key then some [value] else h k

/-- Go `Header.Del`: delete the canonical key. -/
def Header.Del (h : Header) (key : Bytes) : Header :=
  fun k => if k = CanonicalMIMEHeaderKey key then none else h k

/-- A header map given by its entries. -/
def Header.ofList (l : List (Bytes × List Bytes)) : Header := fun k => l.lookup k

/-- Go `io.ReadCloser` as used for a request body: the bytes still to be read
and the error, if any, a read ends with in place of end-of-file. -/
structure Body where
  data : Bytes
  err : Option Bytes

/-- The fields of Go `http.Request` that `push.go` reads or writes. -/
structure Request where
  Method : Bytes
  Path : Bytes
  Header : Header
  ContentLength : Int
  Body : Body

/-- Go `io.Copy(buff, r.Body)` into an empty buffer: the buffered bytes, or
the read error. -/
def ioCopy (src : Body) : Except Bytes Bytes :=
  match src.err with
  | none => .ok src.data
  | some e => .error e

/-- A body all of whose bytes have been read. -/
def drained (b : Body) : Body := { data := [], err := b.err }

/-- Go `ioutil.NopCloser(buff)` / `ioutil.NopCloser(bytes.NewReader(data))`. -/
def NopCloser (data : Bytes) : Body := { data := data, err := none }

/-- The Go runtime and the buffer pool, as far as the handler depends on
them: `bufferCap` is the capacity of the buffer returned by
`bufferPool.Get()` (0 for a new buffer), and `make n` tells whether
`make([]byte, n)` succeeds. -/
structure Runtime where
  bufferCap : Nat
  make : Nat → Bool

/-- Go `maxInt` of package `bytes`, for a 64-bit `int`. -/
def maxInt : Int := 9223372036854775807

/-- Go `smallBufferSize` of package `bytes`. -/
def smallBufferSize : Nat := 64

/-- Go `bytes.growSlice(b, n)` for an empty `b` of capacity `c`: the capacity
of the new slice, or `none` when the allocation fails, which `growSlice`
turns into the panic `ErrTooLarge`. -/
def growSlice (rt : Runtime) (c n : Nat) : Option Nat :=
  let size := if n < 2 * c then 2 * c else n
  if rt.make size then some size else none

/-- Go `(*bytes.Buffer).Grow(n)` on a buffer that has just been `Reset` and
has capacity `c`: the capacity afterwards, or `none` when `Grow` panics
(negative count, or `ErrTooLarge`). -/
def Grow (rt : Runtime) (c : Nat) (n : Int) : Option Nat :=
  if n < 0 then none
  else if n ≤ (c : Int) then some c
  else if c = 0 ∧ n ≤ (smallBufferSize : Int) then
    if rt.make smallBufferSize then some smallBufferSize else none
  else if n ≤ ((c / 2 : Nat) : Int) then some c
  else if (c : Int) > maxInt - (c : Int) - n then none
  else growSlice rt c n.toNat

/-! ## `push.go` -/

/-- `DefaultDetect` of `push.go`. -/
def DefaultDetect (_r : Request) (body : Bytes) : Bool :=
  Contains body (str "\"subscription\":") && Contains body (str "\"message\":")

/-- `DetectFunc` of `push.go`. -/
abbrev DetectFunc := Request → Bytes → Bool

/-- `Options` of `push.go`; `detect` may be nil. -/
structure Options where
  detect : Option DetectFunc
  prefixes : List Bytes

/-- `Option` of `push.go`: a function updating the options. -/
abbrev PushOption := Options → Options

/-- `WithDetector` of `push.go`. -/
def WithDetector (detect : Option DetectFunc) : PushOption :=
  fun o => { o with detect := detect }

/-- `WithPrefixes` of `push.go`. -/
def WithPrefixes (prefixes : List Bytes) : PushOption :=
  fun o => { o with prefixes := prefixes }

/-- `pubsubMessage` of `push.go`. -/
structure pubsubMessage where
  Attributes : List (Bytes × Bytes)
  Data : Bytes
  MessageID : Bytes

/-- `pubsubPushMessage` of `push.go`. -/
structure pubsubPushMessage where
  Message : pubsubMessage
  Subscription : Bytes

/-- The JSON decoder `json.Unmarshal(buff.Bytes(), &p)`: the decoded envelope
or the error message. -/
abbrev Unmarshal := Bytes → Except Bytes pubsubPushMessage

/-- What the handler does, in order. -/
inductive Event where
  | read : Event
  | detect : Request → Bytes → Event
  | next : Request → Event
  | write : Nat → Bytes → Event
  | panic : Event

/-- Go `http.Error(w, error, code)`: status `code`, body `error` and a
newline. -/
def httpError (error : Bytes) (code : Nat) : Event := Event.write code (error ++ [10])

/-- Go `http.StatusBadRequest`. -/
def StatusBadRequest : Nat := 400

/-- The options in force in `New`: every option applied in turn to the zero
`Options`. -/
def applyOptions (options : List PushOption) : Options :=
  options.foldl (fun o opt => opt o) { detect := none, prefixes := [] }

/-- The detector in force in `New`: `DefaultDetect` when none was set. -/
def detector (o : Options) : DetectFunc :=
  match o.detect with
  | none => DefaultDetect
  | some d => d

/-- The loop over `o.prefixes` in `New` (lines 74-79). -/
def found (path : Bytes) : List Bytes → Bool
  | [] => false
  | p :: ps => if HasPrefix path p then true else found path ps

/-- Lines 72-84 of `New`: prefixes are configured and the path starts with
none of them, so that the request is passed through. -/
def prefixMiss (prefixes : List Bytes) (path : Bytes) : Bool :=
  prefixes.length > 0 && !found path prefixes

/-- Lines 93-95 of `New`: `buff.Grow(int(r.ContentLength))` when the content
length is positive.  The result is `false` when `Grow` panics. -/
def presize (rt : Runtime) (contentLength : Int) : Bool :=
  if contentLength > 0 then (Grow rt rt.bufferCap contentLength).isSome else true

/-- The body of the attribute loop of `New` (lines 118-121). -/
def setAttribute (h : Header) (kv : Bytes × Bytes) : Header :=
  let h1 := if ToLower kv.1 = str "content-type" then h.Set (str "Content-Type") kv.2 else h
  h1.Set (str "X-Pubsub-" ++ kv.1) kv.2

/-- The attribute loop of `New` (lines 116-122), visiting the pairs in the
order of the list. -/
def setAttributes (h : Header) (attrs : List (Bytes × Bytes)) : Header :=
  attrs.foldl setAttribute h

/-- Lines 114-134 of `New`: the clone of the request rewritten from the
envelope. -/
def rewrite (r : Request) (p : pubsubPushMessage) : Request :=
  let h := setAttributes r.Header p.Message.Attributes
  let h := if p.Message.MessageID ≠ [] then h.Set (str "X-Pubsub-Message-Id") p.Message.MessageID else h
  let h := if p.Subscription ≠ [] then h.Set (str "X-Pubsub-Subscription") p.Subscription else h
  { r with
    ContentLength := (p.Message.Data.length : Int)
    Header := h.Del (str "Content-Length")
    Body := NopCloser p.Message.Data }

/-- The handler returned by `New(next, options...)`, as the list of its
effects on request `r` when run on the runtime `rt`. -/
def New (rt : Runtime) (unmarshal : Unmarshal) (options : List PushOption) (r : Request) :
    List Event :=
  let o := applyOptions options
  let detect := detector o
  if !HasPrefix (r.Header.Get (str "Content-Type")) (str "application/json")
      || r.Method != str "POST" then
    [Event.next r]
  else if prefixMiss o.prefixes r.Path then
    [Event.next r]
  else if !presize rt r.ContentLength then
    [Event.panic]
  else
    match ioCopy r.Body with
    | .error err =>
      [Event.read, httpError (str "failed to read request body: " ++ err) StatusBadRequest]
    | .ok buff =>
      let r1 := { r with Body := drained r.Body }
      if !detect r1 buff then
        [Event.read, Event.detect r1 buff, Event.next { r1 with Body := NopCloser buff }]
      else
        match unmarshal buff with
        | .error err =>
          [Event.read, Event.detect r1 buff,
            httpError (str "invalid pubsub push message: " ++ err) StatusBadRequest]
        | .ok p =>
          [Event.read, Event.detect r1 buff, Event.next (rewrite r1 p)]

/-- The Gate of the middleware: the `Content-Type` value starts with
`application/json`, the method is POST, and the path starts with one of the
configured prefixes when there are any. -/
def passesGate (o : Options) (r : Request) : Prop :=
  HasPrefix (r.Header.Get (str "Content-Type")) (str "application/json") = true ∧
    r.Method = str "POST" ∧
    (o.prefixes = [] ∨ ∃ p ∈ o.prefixes, HasPrefix r.Path p = true)

/-- The requests the handler passed to the downstream handler. -/
def nextCalls : List Event → List Request
  | [] => []
  | Event.next r :: es => r :: nextCalls es
  | _ :: es => nextCalls es

/-- The attribute `kv` writes the entry `n` of the header map in the
attribute loop: `n` is the canonical key of `X-Pubsub-<key>`, or the key is
`content-type` in some casing and `n` is the canonical key of `Content-Type`. -/
def writes (kv : Bytes × Bytes) (n : Bytes) : Bool :=
  n == CanonicalMIMEHeaderKey (str "X-Pubsub-" ++ kv.1) ||
    (ToLower kv.1 == str "content-type" && n == CanonicalMIMEHeaderKey (str "Content-Type"))

/-- The value of the last attribute, in the order of the loop, that writes
the entry `n`. -/
def lastWrite (n : Bytes) : List (Bytes × Bytes) → Option Bytes
  | [] => none
  | kv :: attrs =>
    match lastWrite n attrs with
    | some v => some v
    | none => if writes kv n then some kv.2 else none

/-! ## Example inputs -/

/-- A POST request to `/` with `Content-Type: application/json`, the further
header entries `extra`, and the body `body`. -/
def jsonPost (extra : List (Bytes × List Bytes)) (body : Bytes) : Request :=
  { Method := str "POST", Path := str "/",
    Header := Header.ofList ((str "Content-Type", [str "application/json"]) :: extra),
    ContentLength := (body.length : Int), Body := NopCloser body }

/-- The request `r` with the declared content length `n`. -/
def declaring (n : Int) (r : Request) : Request := { r with ContentLength := n }

/-- A 64-bit Go runtime handing out a new buffer: `make([]byte, n)` panics
above `runtime.maxAlloc`, which is 2^48 bytes. -/
def goRuntime : Runtime :=
  { bufferCap := 0, make := fun n => decide (n ≤ 281474976710656) }

/-- A decoder known on one input: `body` decodes to `p`. -/
def decodeAs (body : Bytes) (p : pubsubPushMessage) : Unmarshal :=
  fun b => if b = body then .ok p else .error (str "unexpected input")

/-- Scenario A of the specification: the envelope JSON. -/
def scenarioBody : Bytes :=
  str ("\x7b\"message\":\x7b\"attributes\":\x7b\"Content-Type\":\"text/plain\"\x7d," ++
    "\"data\":\"aGVsbG8=\",\"message_id\":\"abc123\"\x7d," ++
    "\"subscription\":\"projects/p/subscriptions/s\"\x7d")

/-- Scenario A of the specification: the decoded envelope. -/
def scenarioEnvelope : pubsubPushMessage :=
  { Message :=
      { Attributes := [(str "Content-Type", str "text/plain")]
        Data := str "hello"
        MessageID := str "abc123" }
    Subscription := str "projects/p/subscriptions/s" }

/-- An envelope with an attribute named `message-id`. -/
def collidingBody : Bytes :=
  str ("\x7b\"message\":\x7b\"attributes\":\x7b\"message-id\":\"from-attribute\"\x7d," ++
    "\"data\":\"aGVsbG8=\",\"message_id\":\"abc123\"\x7d,\"subscription\":\"s\"\x7d")

/-- The decoded form of `collidingBody`. -/
def collidingEnvelope : pubsubPushMessage :=
  { Message :=
      { Attributes := [(str "message-id", str "from-attribute")]
        Data := str "hello"
        MessageID := str "abc123" }
    Subscription := str "s" }

/-- An envelope with the attributes `content-type` and `Content-Type`. -/
def twoTypesBody : Bytes :=
  str ("\x7b\"message\":\x7b\"attributes\":\x7b\"content-type\":\"text/plain\"," ++
    "\"Content-Type\":\"text/html\"\x7d,\"data\":\"aGVsbG8=\",\"message_id\":\"abc123\"\x7d," ++
    "\"subscription\":\"s\"\x7d")

/-- An envelope with the attributes `a` and `A`. -/
def twoCasesBody : Bytes :=
  str ("\x7b\"message\":\x7b\"attributes\":\x7b\"a\":\"1\",\"A\":\"2\"\x7d," ++
    "\"data\":\"aGVsbG8=\",\"message_id\":\"abc123\"\x7d,\"subscription\":\"s\"\x7d")

/-- The decoded form of `twoTypesBody` and of `twoCasesBody`, with the two
attributes in the order `first`, `second` in which the loop visits them. -/
def twoAttributeEnvelope (first second : Bytes × Bytes) : pubsubPushMessage :=
  { Message := { Attributes := [first, second], Data := str "hello", MessageID := str "abc123" }
    Subscription := str "s" }

theorem found_eq_any (path : Bytes) (ps : List Bytes) :
    found path ps = ps.any (fun p => HasPrefix path p) := by
  induction ps with
  | nil => rfl
  | cons p ps ih =>
    simp only [found, List.any_cons, ih]
    cases HasPrefix path p <;> simp

theorem found_iff (path : Bytes) (ps : List Bytes) :
    found path ps = true ↔ ∃ p ∈ ps, HasPrefix path p = true := by
  rw [found_eq_any]; simp

theorem decodeAs_self (body : Bytes) (p : pubsubPushMessage) :
    decodeAs body p body = .ok p := if_pos rfl

theorem Contains_iff (b sep : Bytes) : Contains b sep = true ↔ ∃ s t, b = s ++ sep ++ t := by
  induction b with
  | nil =>
    simp only [Contains, HasPrefix]
    constructor
    · intro h
      cases sep with
      | nil => exact ⟨[], [], rfl⟩
      | cons d sep => simp [List.isPrefixOf] at h
    · rintro ⟨s, t, h⟩
      have h1 : (s ++ sep ++ t).length = 0 := by rw [← h]; rfl
      simp only [List.length_append] at h1
      have h2 : sep = [] := List.length_eq_zero.mp (by omega)
      subst h2; rfl
  | cons c b ih =>
    simp only [Contains, HasPrefix, Bool.or_eq_true, ih, List.isPrefixOf_iff_prefix]
    constructor
    · rintro (⟨t, ht⟩ | ⟨s, t, h⟩)
      · exact ⟨[], t, by simpa using ht.symm⟩
      · exact ⟨c :: s, t, by simp [h]⟩
    · rintro ⟨s, t, h⟩
      cases s with
      | nil => exact Or.inl ⟨t, by simpa using h.symm⟩
      | cons d s =>
        simp only [List.cons_append, List.cons.injEq] at h
        exact Or.inr ⟨s, t, h.2⟩

/-! ## The detector -/

/-- C8: `DefaultDetect r body` is true if and only if `body` contains the
literal bytes `"subscription":` and the literal bytes `"message":`, and its
result is the same for every request. -/
theorem DefaultDetect_iff_contains (r : Request) (body : Bytes) :
    (DefaultDetect r body = true ↔
      (∃ s t, body = s ++ str "\"subscription\":" ++ t) ∧
      (∃ s t, body = s ++ str "\"message\":" ++ t)) ∧
    ∀ r2 : Request, DefaultDetect r2 body = DefaultDetect r body := by
  refine ⟨?_, fun _ => rfl⟩
  simp only [DefaultDetect, Bool.and_eq_true, Contains_iff]

/-! ## The paths through the handler -/

theorem prefixMiss_eq_false_of_gate {o : Options} {r : Request} (h : passesGate o r) :
    prefixMiss o.prefixes r.Path = false := by
  rcases h.2.2 with h0 | h1
  · simp [prefixMiss, h0]
  · simp [prefixMiss, (found_iff _ _).mpr h1]

theorem New_of_gate (rt : Runtime) (unmarshal : Unmarshal) (options : List PushOption)
    (r : Request) (hgate : passesGate (applyOptions options) r)
    (hgrow : presize rt r.ContentLength = true) :
    New rt unmarshal options r =
      match ioCopy r.Body with
      | .error err =>
        [Event.read, httpError (str "failed to read request body: " ++ err) StatusBadRequest]
      | .ok buff =>
        if !detector (applyOptions options) { r with Body := drained r.Body } buff then
          [Event.read, Event.detect { r with Body := drained r.Body } buff,
            Event.next { r with Body := NopCloser buff }]
        else
          match unmarshal buff with
          | .error err =>
            [Event.read, Event.detect { r with Body := drained r.Body } buff,
              httpError (str "invalid pubsub push message: " ++ err) StatusBadRequest]
          | .ok p =>
            [Event.read, Event.detect { r with Body := drained r.Body } buff,
              Event.next (rewrite { r with Body := drained r.Body } p)] := by
  have h1 := hgate.1
  have h2 := hgate.2.1
  have h3 := prefixMiss_eq_false_of_gate hgate
  simp [New, h1, h2, h3, hgrow]

theorem New_of_not_gate (rt : Runtime) (unmarshal : Unmarshal) (options : List PushOption)
    (r : Request) (hgate : ¬ passesGate (applyOptions options) r) :
    New rt unmarshal options r = [Event.next r] := by
  unfold New
  by_cases h1 : HasPrefix (r.Header.Get (str "Content-Type")) (str "application/json") = true
  · by_cases h2 : r.Method = str "POST"
    · have h3 : prefixMiss (applyOptions options).prefixes r.Path = true := by
        by_contra h3
        apply hgate
        refine ⟨h1, h2, ?_⟩
        cases hp : (applyOptions options).prefixes with
        | nil => exact Or.inl rfl
        | cons q qs =>
          right
          rw [← hp, ← found_iff]
          simpa [prefixMiss, hp] using h3
      simp [h1, h2, h3]
    · simp [h1, h2]
  · simp [h1]

theorem New_envelope (rt : Runtime) (unmarshal : Unmarshal) (options : List PushOption)
    (r : Request) (p : pubsubPushMessage) (hgate : passesGate (applyOptions options) r)
    (hgrow : presize rt r.ContentLength = true)
    (hread : r.Body.err = none)
    (hdetect : detector (applyOptions options) { r with Body := drained r.Body } r.Body.data = true)
    (hjson : unmarshal r.Body.data = .ok p) :
    New rt unmarshal options r =
      [Event.read, Event.detect { r with Body := drained r.Body } r.Body.data,
        Event.next (rewrite { r with Body := drained r.Body } p)] := by
  rw [New_of_gate rt unmarshal options r hgate hgrow]
  simp [ioCopy, hread, hdetect, hjson]

theorem prefixMiss_perm {ps ps2 : List Bytes} (hperm : ps.Perm ps2) (path : Bytes) :
    prefixMiss ps path = prefixMiss ps2 path := by
  have hf : found path ps = found path ps2 := by
    rw [Bool.eq_iff_iff, found_iff, found_iff]
    constructor
    · rintro ⟨q, hq, h⟩; exact ⟨q, hperm.mem_iff.mp hq, h⟩
    · rintro ⟨q, hq, h⟩; exact ⟨q, hperm.mem_iff.mpr hq, h⟩
  simp only [prefixMiss, hf, hperm.length_eq]

/-- C5: a request that the gate rejects (method not POST, or `Content-Type`
value not starting with `application/json`, or prefixes configured and the
path starting with none of them) is passed to the downstream handler as it
is, once, and nothing else happens: no read of the body, no call of the
detector, no response.  An empty prefix list rejects no path, and the prefix
check gives the same result for every order of the prefixes. -/
theorem New_gate_reject_passthrough (rt : Runtime) (unmarshal : Unmarshal) (options : List PushOption)
    (r : Request) (ps ps2 : List Bytes) (path : Bytes)
    (hreject : r.Method ≠ str "POST" ∨
      HasPrefix (r.Header.Get (str "Content-Type")) (str "application/json") = false ∨
      ((applyOptions options).prefixes ≠ [] ∧
        ∀ q ∈ (applyOptions options).prefixes, HasPrefix r.Path q = false))
    (hperm : ps.Perm ps2) :
    New rt unmarshal options r = [Event.next r] ∧
      prefixMiss [] path = false ∧
      prefixMiss ps path = prefixMiss ps2 path := by
  refine ⟨?_, rfl, prefixMiss_perm hperm path⟩
  apply New_of_not_gate
  rintro ⟨h1, h2, h3⟩
  rcases hreject with hm | hc | ⟨hne, hall⟩
  · exact hm h2
  · rw [h1] at hc; exact Bool.noConfusion hc
  · rcases h3 with h0 | ⟨q, hq, hqp⟩
    · exact hne h0
    · rw [hall q hq] at hqp; exact Bool.noConfusion hqp

/-- Scenario D of the specification: prefixes `["/push/"]`, path
`/other/endpoint`. -/
theorem New_gate_reject_passthrough_witness :
    New goRuntime (fun _ => .error []) [WithPrefixes [str "/push/"]]
        { Method := str "POST", Path := str "/other/endpoint",
          Header := Header.ofList [(str "Content-Type", [str "application/json"])],
          ContentLength := 2, Body := NopCloser (str "\x7b\x7d") } =
      [Event.next
        { Method := str "POST", Path := str "/other/endpoint",
          Header := Header.ofList [(str "Content-Type", [str "application/json"])],
          ContentLength := 2, Body := NopCloser (str "\x7b\x7d") }] ∧
      prefixMiss [] (str "/other/endpoint") = false ∧
      prefixMiss [str "/a", str "/b"] (str "/other/endpoint") =
        prefixMiss [str "/b", str "/a"] (str "/other/endpoint") :=
  New_gate_reject_passthrough goRuntime (fun _ => .error []) [WithPrefixes [str "/push/"]]
    { Method := str "POST", Path := str "/other/endpoint",
      Header := Header.ofList [(str "Content-Type", [str "application/json"])],
      ContentLength := 2, Body := NopCloser (str "\x7b\x7d") }
    [str "/a", str "/b"] [str "/b", str "/a"] (str "/other/endpoint")
    (Or.inr (Or.inr ⟨by decide, by decide⟩)) (List.Perm.swap _ _ _)

theorem str_xpubsub : str "X-Pubsub-" = [88, 45, 80, 117, 98, 115, 117, 98, 45] := by decide

theorem canonical_head (s : Bytes) : (CanonicalMIMEHeaderKey (88 :: s)).head? = some 88 := by
  unfold CanonicalMIMEHeaderKey
  split
  · simp [canonicalLoop]
  · rfl

theorem canonical_xpubsub_ne (k s : Bytes) (hs : s.head? = some 67) :
    CanonicalMIMEHeaderKey (str "X-Pubsub-" ++ k) ≠ s := by
  intro h
  have h1 := canonical_head ([45, 80, 117, 98, 115, 117, 98, 45] ++ k)
  rw [str_xpubsub] at h
  simp only [List.cons_append, List.nil_append] at h h1
  rw [h, hs] at h1
  simp at h1

theorem setAttribute_apply (h : Header) (kv : Bytes × Bytes) (n : Bytes) :
    setAttribute h kv n = if writes kv n then some [kv.2] else h n := by
  have hne : CanonicalMIMEHeaderKey (str "X-Pubsub-" ++ kv.1) ≠
      CanonicalMIMEHeaderKey (str "Content-Type") :=
    canonical_xpubsub_ne _ _ (by decide)
  unfold setAttribute writes Header.Set
  by_cases h1 : n = CanonicalMIMEHeaderKey (str "X-Pubsub-" ++ kv.1)
  · simp [h1]
  · by_cases h2 : ToLower kv.1 = str "content-type"
    · by_cases h3 : n = CanonicalMIMEHeaderKey (str "Content-Type")
      · subst h3; simp [h2, Ne.symm hne]
      · simp [h1, h2, h3]
    · simp [h1, h2]

theorem setAttributes_apply (h : Header) (attrs : List (Bytes × Bytes)) (n : Bytes) :
    setAttributes h attrs n =
      match lastWrite n attrs with
      | some v => some [v]
      | none => h n := by
  induction attrs generalizing h with
  | nil => rfl
  | cons kv attrs ih =>
    have hstep : setAttributes h (kv :: attrs) = setAttributes (setAttribute h kv) attrs := rfl
    rw [hstep, ih, setAttribute_apply]
    simp only [lastWrite]
    cases lastWrite n attrs with
    | some v => rfl
    | none => by_cases hw : writes kv n = true <;> simp [hw]

theorem lastWrite_eq_none {n : Bytes} {attrs : List (Bytes × Bytes)}
    (h : ∀ a ∈ attrs, writes a n = false) : lastWrite n attrs = none := by
  induction attrs with
  | nil => rfl
  | cons kv attrs ih =>
    simp only [lastWrite, ih (fun a ha => h a (List.mem_cons_of_mem _ ha)),
      h kv (List.mem_cons_self _ _)]
    rfl

theorem lastWrite_eq_some {n : Bytes} {attrs : List (Bytes × Bytes)} {v : Bytes}
    (hex : ∃ a ∈ attrs, writes a n = true)
    (hall : ∀ a ∈ attrs, writes a n = true → a.2 = v) : lastWrite n attrs = some v := by
  induction attrs with
  | nil => obtain ⟨a, ha, _⟩ := hex; cases ha
  | cons kv attrs ih =>
    simp only [lastWrite]
    by_cases htail : ∃ a ∈ attrs, writes a n = true
    · rw [ih htail (fun a ha => hall a (List.mem_cons_of_mem _ ha))]
    · have hnone : lastWrite n attrs = none :=
        lastWrite_eq_none (fun a ha => by
          cases hw : writes a n with
          | false => rfl
          | true => exact absurd ⟨a, ha, hw⟩ htail)
      obtain ⟨a, ha, hw⟩ := hex
      rcases List.mem_cons.mp ha with rfl | ha
      · simp [hnone, hw, hall a (List.mem_cons_self _ _) hw]
      · exact absurd ⟨a, ha, hw⟩ htail

theorem canonical_content_length :
    CanonicalMIMEHeaderKey (str "Content-Length") = str "Content-Length" := by decide

theorem canonical_content_type :
    CanonicalMIMEHeaderKey (str "Content-Type") = str "Content-Type" := by decide

theorem canonical_message_id :
    CanonicalMIMEHeaderKey (str "X-Pubsub-Message-Id") = str "X-Pubsub-Message-Id" := by decide

theorem canonical_subscription :
    CanonicalMIMEHeaderKey (str "X-Pubsub-Subscription") = str "X-Pubsub-Subscription" := by
  decide

theorem Set_apply (h : Header) (key value n : Bytes) :
    h.Set key value n = if n = CanonicalMIMEHeaderKey key then some [value] else h n := rfl

theorem Del_apply (h : Header) (key n : Bytes) :
    h.Del key n = if n = CanonicalMIMEHeaderKey key then none else h n := rfl

theorem rewrite_header (r : Request) (p : pubsubPushMessage) (n : Bytes) :
    (rewrite r p).Header n =
      if n = str "Content-Length" then none
      else if p.Subscription ≠ [] ∧ n = str "X-Pubsub-Subscription" then some [p.Subscription]
      else if p.Message.MessageID ≠ [] ∧ n = str "X-Pubsub-Message-Id" then
        some [p.Message.MessageID]
      else setAttributes r.Header p.Message.Attributes n := by
  by_cases h2 : p.Subscription = [] <;> by_cases h3 : p.Message.MessageID = [] <;>
    simp [rewrite, h2, h3, Set_apply, Del_apply, canonical_content_length,
      canonical_message_id, canonical_subscription]

theorem valid_lowerByte (c : Nat) :
    validHeaderFieldByte (lowerByte c) = validHeaderFieldByte c := by
  unfold lowerByte
  split
  · next h =>
    have h1 : validHeaderFieldByte c = true := by
      simp only [validHeaderFieldByte, Bool.or_eq_true, Bool.and_eq_true, decide_eq_true_eq]
      left; right; exact h
    have h2 : validHeaderFieldByte (c + 32) = true := by
      simp only [validHeaderFieldByte, Bool.or_eq_true, Bool.and_eq_true, decide_eq_true_eq]
      left; left; right; omega
    rw [h1, h2]
  · rfl

theorem all_valid_lower (s : Bytes) :
    (ToLower s).all validHeaderFieldByte = s.all validHeaderFieldByte := by
  induction s with
  | nil => rfl
  | cons c s ih =>
    have h : ToLower (c :: s) = lowerByte c :: ToLower s := rfl
    rw [h, List.all_cons, List.all_cons, ih, valid_lowerByte]

theorem canonicalLoop_lower (upper : Bool) (s : Bytes) :
    canonicalLoop upper (ToLower s) = canonicalLoop upper s := by
  induction s generalizing upper with
  | nil => rfl
  | cons c s ih =>
    have h : ToLower (c :: s) = lowerByte c :: ToLower s := rfl
    rw [h]
    simp only [canonicalLoop]
    have hc : (if (upper && (decide (97 ≤ lowerByte c) && decide (lowerByte c ≤ 122))) = true
          then lowerByte c - 32
          else if (!upper && (decide (65 ≤ lowerByte c) && decide (lowerByte c ≤ 90))) = true
            then lowerByte c + 32 else lowerByte c) =
        (if (upper && (decide (97 ≤ c) && decide (c ≤ 122))) = true then c - 32
          else if (!upper && (decide (65 ≤ c) && decide (c ≤ 90))) = true then c + 32 else c) := by
      unfold lowerByte
      cases upper <;> simp <;> split_ifs <;> omega
    rw [hc, ih]

theorem canonical_of_lower (s t : Bytes) (h : ToLower s = t)
    (hvalid : t.all validHeaderFieldByte = true) :
    CanonicalMIMEHeaderKey s = canonicalLoop true t := by
  subst h
  rw [all_valid_lower] at hvalid
  simp only [CanonicalMIMEHeaderKey, hvalid, if_true, canonicalLoop_lower]

theorem canonical_xpubsub_content_type (k : Bytes) (h : ToLower k = str "content-type") :
    CanonicalMIMEHeaderKey (str "X-Pubsub-" ++ k) = str "X-Pubsub-Content-Type" := by
  have hl : ToLower (str "X-Pubsub-" ++ k) = str "x-pubsub-content-type" := by
    have happ : ToLower (str "X-Pubsub-" ++ k) = ToLower (str "X-Pubsub-") ++ ToLower k := by
      simp [ToLower]
    rw [happ, h]; decide
  rw [canonical_of_lower _ _ hl (by decide)]; decide

theorem writes_iff (kv : Bytes × Bytes) (n : Bytes) :
    writes kv n = true ↔
      n = CanonicalMIMEHeaderKey (str "X-Pubsub-" ++ kv.1) ∨
        (ToLower kv.1 = str "content-type" ∧ n = str "Content-Type") := by
  simp [writes, canonical_content_type]

/-- If attributes whose `X-Pubsub-` names have the same canonical form carry
the same value, then all attributes writing one entry carry the same value. -/
theorem writes_consistent {attrs : List (Bytes × Bytes)}
    (hcons : ∀ a ∈ attrs, ∀ b ∈ attrs,
      CanonicalMIMEHeaderKey (str "X-Pubsub-" ++ a.1) =
        CanonicalMIMEHeaderKey (str "X-Pubsub-" ++ b.1) → a.2 = b.2)
    {a b : Bytes × Bytes} (ha : a ∈ attrs) (hb : b ∈ attrs) {n : Bytes}
    (hwa : writes a n = true) (hwb : writes b n = true) : a.2 = b.2 := by
  rw [writes_iff] at hwa hwb
  have hne : ∀ k, CanonicalMIMEHeaderKey (str "X-Pubsub-" ++ k) ≠ str "Content-Type" :=
    fun k => canonical_xpubsub_ne k _ (by decide)
  rcases hwa with h1 | ⟨h1, h1n⟩ <;> rcases hwb with h2 | ⟨h2, h2n⟩
  · exact hcons a ha b hb (h1.symm.trans h2)
  · exact absurd (h1.symm.trans h2n) (hne _)
  · exact absurd (h2.symm.trans h1n) (hne _)
  · exact hcons a ha b hb
      ((canonical_xpubsub_content_type _ h1).trans (canonical_xpubsub_content_type _ h2).symm)

theorem lastWrite_perm {attrs attrs2 : List (Bytes × Bytes)} (hperm : attrs.Perm attrs2)
    (hcons : ∀ a ∈ attrs, ∀ b ∈ attrs,
      CanonicalMIMEHeaderKey (str "X-Pubsub-" ++ a.1) =
        CanonicalMIMEHeaderKey (str "X-Pubsub-" ++ b.1) → a.2 = b.2)
    (n : Bytes) : lastWrite n attrs = lastWrite n attrs2 := by
  by_cases hex : ∃ a ∈ attrs, writes a n = true
  · obtain ⟨a, ha, hw⟩ := hex
    have h1 : lastWrite n attrs = some a.2 :=
      lastWrite_eq_some ⟨a, ha, hw⟩ (fun b hb hwb => writes_consistent hcons hb ha hwb hw)
    have h2 : lastWrite n attrs2 = some a.2 :=
      lastWrite_eq_some ⟨a, hperm.mem_iff.mp ha, hw⟩
        (fun b hb hwb => writes_consistent hcons (hperm.mem_iff.mpr hb) ha hwb hw)
    rw [h1, h2]
  · have hnone : ∀ a ∈ attrs, writes a n = false := fun a ha => by
      cases hw : writes a n with
      | false => rfl
      | true => exact absurd ⟨a, ha, hw⟩ hex
    rw [lastWrite_eq_none hnone,
      lastWrite_eq_none (fun a ha => hnone a (hperm.mem_iff.mpr ha))]

/-! ## The envelope path: attribute headers -/

/-- C2, as the code has it: when `buff.Grow` returns for the declared content
length, for a decoded envelope `p` and an attribute `(k, v)`, if every
attribute whose `X-Pubsub-` header name has the same
canonical form as that of `k` carries the value `v`, and that canonical name
is not `X-Pubsub-Message-Id` with a non-empty message id nor
`X-Pubsub-Subscription` with a non-empty subscription, then the request
handed downstream holds `[v]` under the canonical form of `X-Pubsub-<k>`, and
`Header.Get("X-Pubsub-"+k)` is `v`. -/
theorem New_attribute_header (rt : Runtime) (unmarshal : Unmarshal) (options : List PushOption)
    (r : Request) (p : pubsubPushMessage) (k v : Bytes)
    (hgate : passesGate (applyOptions options) r)
    (hgrow : presize rt r.ContentLength = true)
    (hread : r.Body.err = none)
    (hdetect : detector (applyOptions options) { r with Body := drained r.Body } r.Body.data = true)
    (hjson : unmarshal r.Body.data = .ok p)
    (hmem : (k, v) ∈ p.Message.Attributes)
    (hsame : ∀ a ∈ p.Message.Attributes,
      CanonicalMIMEHeaderKey (str "X-Pubsub-" ++ a.1) =
        CanonicalMIMEHeaderKey (str "X-Pubsub-" ++ k) → a.2 = v)
    (hid : p.Message.MessageID = [] ∨
      CanonicalMIMEHeaderKey (str "X-Pubsub-" ++ k) ≠ str "X-Pubsub-Message-Id")
    (hsub : p.Subscription = [] ∨
      CanonicalMIMEHeaderKey (str "X-Pubsub-" ++ k) ≠ str "X-Pubsub-Subscription") :
    ∃ r2, nextCalls (New rt unmarshal options r) = [r2] ∧
      r2.Header (CanonicalMIMEHeaderKey (str "X-Pubsub-" ++ k)) = some [v] ∧
      r2.Header.Get (str "X-Pubsub-" ++ k) = v := by
  have hval : (rewrite { r with Body := drained r.Body } p).Header
      (CanonicalMIMEHeaderKey (str "X-Pubsub-" ++ k)) = some [v] := by
    have hcl : CanonicalMIMEHeaderKey (str "X-Pubsub-" ++ k) ≠ str "Content-Length" :=
      canonical_xpubsub_ne k _ (by decide)
    have hct : CanonicalMIMEHeaderKey (str "X-Pubsub-" ++ k) ≠ str "Content-Type" :=
      canonical_xpubsub_ne k _ (by decide)
    have hs : ¬ (p.Subscription ≠ [] ∧
        CanonicalMIMEHeaderKey (str "X-Pubsub-" ++ k) = str "X-Pubsub-Subscription") := by
      rintro ⟨h1, h2⟩
      rcases hsub with h | h
      · exact h1 h
      · exact h h2
    have hi : ¬ (p.Message.MessageID ≠ [] ∧
        CanonicalMIMEHeaderKey (str "X-Pubsub-" ++ k) = str "X-Pubsub-Message-Id") := by
      rintro ⟨h1, h2⟩
      rcases hid with h | h
      · exact h1 h
      · exact h h2
    rw [rewrite_header, if_neg hcl, if_neg hs, if_neg hi, setAttributes_apply]
    have hlast : lastWrite (CanonicalMIMEHeaderKey (str "X-Pubsub-" ++ k))
        p.Message.Attributes = some v := by
      apply lastWrite_eq_some
      · exact ⟨(k, v), hmem, (writes_iff _ _).mpr (Or.inl rfl)⟩
      · intro a ha hw
        rcases (writes_iff _ _).mp hw with h | ⟨_, h⟩
        · exact hsame a ha h.symm
        · exact absurd h hct
    rw [hlast]
  refine ⟨rewrite { r with Body := drained r.Body } p, ?_, hval, ?_⟩
  · rw [New_envelope rt unmarshal options r p hgate hgrow hread hdetect hjson]; rfl
  · simp only [Header.Get, hval]

/-- Scenario A of the specification, declaring its 140 bytes: the attribute `Content-Type` arrives as
`X-Pubsub-Content-Type: text/plain`. -/
theorem New_attribute_header_witness :
    ∃ r2, nextCalls (New goRuntime (decodeAs scenarioBody scenarioEnvelope) []
        (declaring 140 (jsonPost [] scenarioBody))) = [r2] ∧
      r2.Header (CanonicalMIMEHeaderKey (str "X-Pubsub-" ++ str "Content-Type")) =
        some [str "text/plain"] ∧
      r2.Header.Get (str "X-Pubsub-" ++ str "Content-Type") = str "text/plain" :=
  New_attribute_header goRuntime (decodeAs scenarioBody scenarioEnvelope) []
    (declaring 140 (jsonPost [] scenarioBody)) scenarioEnvelope (str "Content-Type")
    (str "text/plain") ⟨rfl, rfl, Or.inl rfl⟩ (by decide) rfl (by decide) (decodeAs_self _ _) (by decide) (by decide)
    (Or.inr (by decide)) (Or.inr (by decide))

/-- C2 fails as stated.  First input: the envelope has the attribute
`message-id` with the value `from-attribute` and the message id `abc123`; the
request handed downstream has no map entry named `X-Pubsub-message-id`, and
`Header.Get("X-Pubsub-message-id")` is `abc123`, not `from-attribute`.
Second input: the envelope has the attributes `a` = `1` and `A` = `2`; when
the loop visits `a` first `Header.Get("X-Pubsub-a")` is `2`, not `1`, and
when it visits `A` first `Header.Get("X-Pubsub-A")` is `1`, not `2`.
Third input: the first envelope posted with a declared content length of
2^62; the handler panics in `buff.Grow` and hands no request downstream. -/
theorem attribute_header_counterexample :
    (str "message-id", str "from-attribute") ∈ collidingEnvelope.Message.Attributes ∧
      (nextCalls (New goRuntime (decodeAs collidingBody collidingEnvelope) []
          (declaring 117 (jsonPost [] collidingBody)))).map
        (fun r2 => (r2.Header (str "X-Pubsub-message-id"),
          r2.Header.Get (str "X-Pubsub-message-id"))) = [(none, str "abc123")] ∧
      str "abc123" ≠ str "from-attribute" ∧
      (nextCalls (New goRuntime (decodeAs twoCasesBody
          (twoAttributeEnvelope (str "a", str "1") (str "A", str "2"))) []
          (declaring 103 (jsonPost [] twoCasesBody)))).map
        (fun r2 => r2.Header.Get (str "X-Pubsub-a")) = [str "2"] ∧
      (nextCalls (New goRuntime (decodeAs twoCasesBody
          (twoAttributeEnvelope (str "A", str "2") (str "a", str "1"))) []
          (declaring 103 (jsonPost [] twoCasesBody)))).map
        (fun r2 => r2.Header.Get (str "X-Pubsub-A")) = [str "1"] ∧
      str "2" ≠ str "1" ∧
      (nextCalls (New goRuntime (decodeAs collidingBody collidingEnvelope) []
          (declaring 4611686018427387904 (jsonPost [] collidingBody)))).map
        (fun r2 => r2.Header.Get (str "X-Pubsub-message-id")) = [] := by
  decide

/-- C4, as the code has it: when `buff.Grow` returns for the declared content
length, for a decoded envelope `p` and an attribute `(k, v)` whose key is `Content-Type` in some letter casing, if every
attribute whose key is `Content-Type` in some letter casing carries the value
`v`, then the `Content-Type` header of the request handed downstream is `v`. -/
theorem New_content_type_attribute (rt : Runtime) (unmarshal : Unmarshal) (options : List PushOption)
    (r : Request) (p : pubsubPushMessage) (k v : Bytes)
    (hgate : passesGate (applyOptions options) r)
    (hgrow : presize rt r.ContentLength = true)
    (hread : r.Body.err = none)
    (hdetect : detector (applyOptions options) { r with Body := drained r.Body } r.Body.data = true)
    (hjson : unmarshal r.Body.data = .ok p)
    (hmem : (k, v) ∈ p.Message.Attributes)
    (hk : ToLower k = str "content-type")
    (hsame : ∀ a ∈ p.Message.Attributes, ToLower a.1 = str "content-type" → a.2 = v) :
    ∃ r2, nextCalls (New rt unmarshal options r) = [r2] ∧
      r2.Header (str "Content-Type") = some [v] ∧
      r2.Header.Get (str "Content-Type") = v := by
  have hval : (rewrite { r with Body := drained r.Body } p).Header (str "Content-Type") =
      some [v] := by
    have hcl : str "Content-Type" ≠ str "Content-Length" := by decide
    have hs : ¬ (p.Subscription ≠ [] ∧ str "Content-Type" = str "X-Pubsub-Subscription") :=
      fun h => absurd h.2 (by decide)
    have hi : ¬ (p.Message.MessageID ≠ [] ∧ str "Content-Type" = str "X-Pubsub-Message-Id") :=
      fun h => absurd h.2 (by decide)
    rw [rewrite_header, if_neg hcl, if_neg hs, if_neg hi, setAttributes_apply]
    have hlast : lastWrite (str "Content-Type") p.Message.Attributes = some v := by
      apply lastWrite_eq_some
      · exact ⟨(k, v), hmem, (writes_iff _ _).mpr (Or.inr ⟨hk, rfl⟩)⟩
      · intro a ha hw
        rcases (writes_iff _ _).mp hw with h | ⟨h, _⟩
        · exact absurd h.symm (canonical_xpubsub_ne a.1 _ (by decide))
        · exact hsame a ha h
    rw [hlast]
  refine ⟨rewrite { r with Body := drained r.Body } p, ?_, hval, ?_⟩
  · rw [New_envelope rt unmarshal options r p hgate hgrow hread hdetect hjson]; rfl
  · simp only [Header.Get, canonical_content_type, hval]

/-- Scenario A of the specification, declaring its 140 bytes: the downstream
`Content-Type` is `text/plain`. -/
theorem New_content_type_attribute_witness :
    ∃ r2, nextCalls (New goRuntime (decodeAs scenarioBody scenarioEnvelope) []
        (declaring 140 (jsonPost [] scenarioBody))) = [r2] ∧
      r2.Header (str "Content-Type") = some [str "text/plain"] ∧
      r2.Header.Get (str "Content-Type") = str "text/plain" :=
  New_content_type_attribute goRuntime (decodeAs scenarioBody scenarioEnvelope) []
    (declaring 140 (jsonPost [] scenarioBody)) scenarioEnvelope (str "Content-Type")
    (str "text/plain") ⟨rfl, rfl, Or.inl rfl⟩ (by decide) rfl (by decide) (decodeAs_self _ _) (by decide) (by decide)
    (by decide)

/-- C4 fails as stated: the envelope has the attributes `content-type` with
the value `text/plain` and `Content-Type` with the value `text/html`.  When
the loop visits `content-type` first, the downstream `Content-Type` is
`text/html`, not the value of the attribute `content-type`; when it visits
`Content-Type` first, the downstream `Content-Type` is `text/plain`, not the
value of the attribute `Content-Type`.  Posted with a declared content
length of 2^62, the handler panics in `buff.Grow` and hands no request
downstream. -/
theorem content_type_attribute_counterexample :
    ToLower (str "content-type") = str "content-type" ∧
      ToLower (str "Content-Type") = str "content-type" ∧
      (nextCalls (New goRuntime (decodeAs twoTypesBody
          (twoAttributeEnvelope (str "content-type", str "text/plain")
            (str "Content-Type", str "text/html"))) []
          (declaring 142 (jsonPost [] twoTypesBody)))).map
        (fun r2 => r2.Header.Get (str "Content-Type")) = [str "text/html"] ∧
      (nextCalls (New goRuntime (decodeAs twoTypesBody
          (twoAttributeEnvelope (str "Content-Type", str "text/html")
            (str "content-type", str "text/plain"))) []
          (declaring 142 (jsonPost [] twoTypesBody)))).map
        (fun r2 => r2.Header.Get (str "Content-Type")) = [str "text/plain"] ∧
      str "text/html" ≠ str "text/plain" ∧
      (nextCalls (New goRuntime (decodeAs twoTypesBody
          (twoAttributeEnvelope (str "content-type", str "text/plain")
            (str "Content-Type", str "text/html"))) []
          (declaring 4611686018427387904 (jsonPost [] twoTypesBody)))).map
        (fun r2 => r2.Header.Get (str "Content-Type")) = [] := by
  decide

/-- C9, as the code has it: if any two attributes whose `X-Pubsub-` header
names have the same canonical form carry the same value, the attribute loop
yields the same header map for every order of the attributes, and so does
the whole rewriting of the request. -/
theorem setAttributes_perm (r : Request) (attrs attrs2 : List (Bytes × Bytes))
    (data id sub : Bytes) (hperm : attrs.Perm attrs2)
    (hcons : ∀ a ∈ attrs, ∀ b ∈ attrs,
      CanonicalMIMEHeaderKey (str "X-Pubsub-" ++ a.1) =
        CanonicalMIMEHeaderKey (str "X-Pubsub-" ++ b.1) → a.2 = b.2) :
    setAttributes r.Header attrs = setAttributes r.Header attrs2 ∧
      (rewrite r { Message := { Attributes := attrs, Data := data, MessageID := id },
                   Subscription := sub }).Header =
        (rewrite r { Message := { Attributes := attrs2, Data := data, MessageID := id },
                     Subscription := sub }).Header := by
  have h1 : setAttributes r.Header attrs = setAttributes r.Header attrs2 := by
    funext n
    rw [setAttributes_apply, setAttributes_apply, lastWrite_perm hperm hcons n]
  refine ⟨h1, ?_⟩
  funext n
  rw [rewrite_header, rewrite_header]
  simp only [h1]

/-- Two attributes with different header names, in both orders. -/
theorem setAttributes_perm_witness :
    setAttributes (jsonPost [] []).Header [(str "a", str "1"), (str "b", str "2")] =
        setAttributes (jsonPost [] []).Header [(str "b", str "2"), (str "a", str "1")] ∧
      (rewrite (jsonPost [] [])
          { Message := { Attributes := [(str "a", str "1"), (str "b", str "2")],
                         Data := str "hello", MessageID := str "abc123" },
            Subscription := str "s" }).Header =
        (rewrite (jsonPost [] [])
          { Message := { Attributes := [(str "b", str "2"), (str "a", str "1")],
                         Data := str "hello", MessageID := str "abc123" },
            Subscription := str "s" }).Header :=
  setAttributes_perm (jsonPost [] []) [(str "a", str "1"), (str "b", str "2")]
    [(str "b", str "2"), (str "a", str "1")] (str "hello") (str "abc123") (str "s")
    (List.Perm.swap _ _ _) (by decide)

/-- C9 fails as stated: the attributes `a` = `1` and `A` = `2` are both stored
under `X-Pubsub-A`; visiting `a` first leaves `2` there, visiting `A` first
leaves `1`, so the two orders give different header maps. -/
theorem setAttributes_order_counterexample :
    List.Perm [(str "a", str "1"), (str "A", str "2")] [(str "A", str "2"), (str "a", str "1")] ∧
      setAttributes (jsonPost [] []).Header [(str "a", str "1"), (str "A", str "2")]
        (str "X-Pubsub-A") = some [str "2"] ∧
      setAttributes (jsonPost [] []).Header [(str "A", str "2"), (str "a", str "1")]
        (str "X-Pubsub-A") = some [str "1"] ∧
      setAttributes (jsonPost [] []).Header [(str "a", str "1"), (str "A", str "2")] ≠
        setAttributes (jsonPost [] []).Header [(str "A", str "2"), (str "a", str "1")] := by
  refine ⟨List.Perm.swap _ _ _, by decide, by decide, ?_⟩
  intro h
  have h2 := congrFun h (str "X-Pubsub-A")
  revert h2
  decide

/-! ## The envelope path: the other headers -/

end Push
